import Mathlib

/-!
Verification of `schvalidator`, file `src/schvalidator/schematron.py`.

The module validates an XML document against an ISO Schematron schema and
walks the SVRL result tree, emitting one log record per failed assertion.
We shallowly embed the XML trees the code manipulates (lxml elements:
qualified tag, attribute dictionary, text, element children), the
schema-kind gate `check4schematron`, the severity lookup `role2level`,
the role resolution `extractrole`, the report walk `process_result_svrl`,
the orchestration `validate_sch` and `process`.

File parsing and the Schematron compilation/validation engine (the lxml
`Schematron` class) are external collaborators: the embedding takes
already-parsed trees as inputs and abstracts the engine as a function
from (schema tree, phase, document tree) to (boolean result, SVRL tree).
Logging is modelled as data: every `log.log` call becomes an emitted
record carrying the level value that the code passes.
-/

/-- An lxml element: fully qualified tag string, attribute dictionary
(association list), optional text, and element children in document
order.  `fa[0]` in the Python code indexes element children, so children
here are elements only. -/
inductive Element where
  | elem (tag : String) (attrib : List (String × String)) (text : Option String)
      (children : List Element)

def Element.tag : Element → String
  | .elem t _ _ _ => t

def Element.attrib : Element → List (String × String)
  | .elem _ a _ _ => a

def Element.text : Element → Option String
  | .elem _ _ x _ => x

def Element.children : Element → List Element
  | .elem _ _ _ cs => cs

/-- Python `e.attrib.get(key)`: look the attribute up in the dictionary,
returning `none` when absent. -/
def attribGet (e : Element) (key : String) : Option String :=
  (e.attrib.find? (fun p => p.1 = key)).map (fun p => p.2)

/-- The text of `etree.QName(ns, name)`: the fully qualified tag string
written as the namespace in braces followed by the local name.  This is
what `NSElement.__call__` builds via `etree.QName`. -/
def qname (ns localName : String) : String :=
  "\x7b" ++ ns ++ "\x7d" ++ localName

/-- Modelled from the spec: the SVRL namespace entry of `NSMAP` from the
module `common`, which is not part of the provided sources.  SVRL is the
standard Schematron Validation Report Language namespace. -/
def svrlNS : String := "http://purl.oclc.org/dsdl/svrl"

/-- Tag matched by `report.iter(svrl("failed-assert").text)`. -/
def failedAssertTag : String := qname svrlNS "failed-assert"

/-- Tag matched by `fa.itersiblings(svrl("fired-rule").text, preceding=True)`. -/
def firedRuleTag : String := qname svrlNS "fired-rule"

/-- Modelled from the spec: `SCHEMA_TAG` from the module `common` (not in
the provided sources) — the root tag of an ISO Schematron schema. -/
def SCHEMA_TAG : String := qname "http://purl.oclc.org/dsdl/schematron" "schema"

/-- Modelled from the spec: `OLD_SCHEMA_TAG` from the module `common`
(not in the provided sources) — the root tag of a legacy (pre-ISO)
Schematron schema. -/
def OLD_SCHEMA_TAG : String := qname "http://www.ascc.net/xml/schematron" "schema"

/-- Modelled from the spec: `ROLEDICT` from the module `common` (not in
the provided sources) — the fixed mapping from recognized `role`
attribute values to Python logging levels (CRITICAL 50, ERROR 40,
WARNING 30, INFO 20). -/
def ROLEDICT : List (String × Nat) :=
  [("fatal", 50), ("error", 40), ("warning", 30), ("info", 20)]

/-- Embeds `role2level` (schematron.py lines 56-61): `ROLEDICT.get(rolelevel)`.
A Python `dict.get` returns `None` on a missing key, and also when the
key itself is `None` (an absent role), hence the `Option` argument. -/
def role2level (rolelevel : Option String) : Option Nat :=
  match rolelevel with
  | none => none
  | some r => (ROLEDICT.find? (fun p => p.1 = r)).map (fun p => p.2)

/-- The two error kinds raised by `check4schematron`, from the module
`exceptions` (payload messages elided). -/
inductive SchError where
  | oldSchematronError
  | noISOSchematronFileError
deriving DecidableEq

/-- Embeds `check4schematron` (schematron.py lines 64-83) after the
parse: inspect the root tag; raise `OldSchematronError` on the legacy
root tag, `NoISOSchematronFileError` when the tag is not the ISO
Schematron root either, and return the parsed tree unchanged otherwise.
The argument is the already-parsed schema tree (its root element). -/
def check4schematron (schtree : Element) : Except SchError Element :=
  let roottag := schtree.tag
  if roottag = OLD_SCHEMA_TAG then
    Except.error SchError.oldSchematronError
  else if roottag ≠ SCHEMA_TAG then
    Except.error SchError.noISOSchematronFileError
  else
    Except.ok schtree

/-- Embeds `extractrole` (schematron.py lines 117-134).  The Python code
runs `list(fa.itersiblings(firedRuleTag, preceding=True))[0].attrib.get("role")`
inside `try/except IndexError`: the preceding siblings of `fa` are
scanned in reverse document order (nearest first) for the first
`fired-rule` element; its `role` attribute (possibly absent) is the
inherited role, and an empty scan (`IndexError`) yields `None`.  Then
the role is overwritten by the assertion element s own `role` attribute
whenever that one is present.  `precSibs` is the list of preceding
siblings of `fa`, nearest first. -/
def extractrole (fa : Element) (precSibs : List Element) : Option String :=
  let role : Option String :=
    match precSibs.find? (fun e => e.tag = firedRuleTag) with
    | some fr => attribGet fr "role"
    | none => none
  match attribGet fa "role" with
  | none => role
  | some r => some r

/-- One emitted log record of `process_result_svrl`: the `log.log(level,
"No. %i ... Location ... Message ...", idx, loc, text, separator)` call,
as data.  `level` is exactly the value `role2level(extractrole(fa))`
that the code passes to the logger, absent when the role was absent or
unmapped. -/
structure FailedAssertionRecord where
  idx : Nat
  location : Option String
  message : String
  level : Option Nat
deriving DecidableEq

mutual
/-- Embeds `report.iter(svrl("failed-assert").text)`: document-order
(preorder, self included) traversal collecting every element whose tag
is `failedAssertTag`, paired with its preceding siblings (nearest first)
as lxml s `itersiblings(..., preceding=True)` would enumerate them.
`precSibs` are the preceding siblings of `e` itself. -/
def iterFA (e : Element) (precSibs : List Element) :
    List (Element × List Element) :=
  match e with
  | .elem t a x cs =>
      (if t = failedAssertTag then [(Element.elem t a x cs, precSibs)] else [])
        ++ iterFAList cs []

/-- Children traversal for `iterFA`: `acc` accumulates the preceding
siblings of the current child, nearest first. -/
def iterFAList (cs : List Element) (acc : List Element) :
    List (Element × List Element) :=
  match cs with
  | [] => []
  | c :: rest => iterFA c acc ++ iterFAList rest (c :: acc)
end

/-- Python `fa[0].text`: `none` when `fa` has no element child
(`IndexError`) or when the first child s text is `None`
(`AttributeError` on `.strip()`); both make the walk raise. -/
def firstChildText (fa : Element) : Option String :=
  match fa.children with
  | [] => none
  | c :: _ => c.text

/-- Embeds the loop body sequence of `process_result_svrl` (schematron.py
lines 143-155) over the collected failed asserts, starting at index
`idx` (`enumerate(..., 1)` starts at 1).  `Except.ok rs` means the loop
completed emitting the records `rs`; `Except.error rs` means an
exception was raised at the first malformed element (`fa[0]` missing or
its text `None`), after the records `rs` had already been emitted —
records past the faulting element are never produced. -/
def walkFAs : List (Element × List Element) → Nat →
    Except (List FailedAssertionRecord) (List FailedAssertionRecord)
  | [], _ => Except.ok []
  | (fa, sibs) :: rest, idx =>
    match firstChildText fa with
    | none => Except.error []
    | some s =>
      let r : FailedAssertionRecord :=
        { idx := idx
          location := attribGet fa "location"
          message := s.trim
          level := role2level (extractrole fa sibs) }
      match walkFAs rest (idx + 1) with
      | Except.ok rs => Except.ok (r :: rs)
      | Except.error rs => Except.error (r :: rs)

/-- Embeds `process_result_svrl` (schematron.py lines 137-155): walk the
report tree in document order and emit one record per failed assert,
1-based. -/
def process_result_svrl (report : Element) :
    Except (List FailedAssertionRecord) (List FailedAssertionRecord) :=
  walkFAs (iterFA report []) 1

/-- Configuration of the `etree.XMLParser` object as far as the code
sets it: `encoding` and `no_network` keyword arguments. -/
structure XMLParserConfig where
  encoding : Option String
  no_network : Bool
deriving DecidableEq

/-- The default parser built in `validate_sch` (schematron.py lines
98-102) when the caller supplies none:
`etree.XMLParser(encoding="UTF-8", no_network=True)`. -/
def defaultXMLParserConfig : XMLParserConfig :=
  { encoding := some "UTF-8", no_network := true }

/-- Embeds the parser selection of `validate_sch` (lines 98-104): when
`xmlparser is None` the default parser is constructed, and the very same
parser object is then used both for `etree.parse(xmlfile, parser=xmlparser)`
and passed on to `check4schematron(schema, xmlparser)` for the schema
parse.  Returns the pair (parser used for the XML document parse, parser
used for the schema parse inside `check4schematron`). -/
def validate_sch_parsers (xmlparser : Option XMLParserConfig) :
    XMLParserConfig × XMLParserConfig :=
  let p : XMLParserConfig :=
    match xmlparser with
    | none => defaultXMLParserConfig
    | some q => q
  (p, p)

/-- The external Schematron validation engine (lxml s
`Schematron(schema, phase=..., store_report=True, store_xslt=True)`
followed by `.validate(doctree)`), an external collaborator per the
spec: given the confirmed schema tree, the optional phase and the
parsed document tree, it produces the boolean validation result and
the SVRL report tree (`schematron.validation_report`). -/
structure SchematronEngine where
  validate : Element → Option String → Element → Bool × Element

/-- Embeds `validate_sch` (schematron.py lines 86-114) at tree level:
gate the schema tree through `check4schematron` (its two errors
propagate unchanged), then run the engine on the document tree,
returning the validation result together with the SVRL report tree. -/
def validate_sch (engine : SchematronEngine) (schemaTree xmlTree : Element)
    (phase : Option String) : Except SchError (Bool × Element) :=
  match check4schematron schemaTree with
  | Except.error e => Except.error e
  | Except.ok sch => Except.ok (engine.validate sch phase xmlTree)

/-- The spec s `runValidation` observable outcome: the pass/fail result
of `validate_sch` together with the full sequence of failed-assertion
records that walking the report emits. -/
def runValidation (engine : SchematronEngine) (schemaTree xmlTree : Element)
    (phase : Option String) :
    Except SchError
      (Bool × Except (List FailedAssertionRecord) (List FailedAssertionRecord)) :=
  match validate_sch engine schemaTree xmlTree phase with
  | Except.error e => Except.error e
  | Except.ok (res, rep) => Except.ok (res, process_result_svrl rep)

/-- Failure modes of `process`: a schema-kind error raised by
`check4schematron` inside `validate_sch`, or the exception raised while
walking a malformed report (carrying the records emitted before it). -/
inductive ProcessError where
  | schemaError (e : SchError)
  | reportError (emitted : List FailedAssertionRecord)

/-- The observable outcome of a completed `process` call: the returned
exit code, the emitted failed-assertion records, and the Python logging
level of the final summary line (`log.fatal` = CRITICAL = 50 on
failure, `log.info` = INFO = 20 on success). -/
structure ProcessOutcome where
  exitCode : Nat
  records : List FailedAssertionRecord
  summaryLevel : Nat
deriving DecidableEq

/-- Embeds `process` (schematron.py lines 193-213): run `validate_sch`,
walk the SVRL report (report/XSLT file writing is I/O glue with no
effect on the outcome), then return 200 after a fatal summary line when
the validation result is falsy, and 0 after an info summary line
otherwise. -/
def process (engine : SchematronEngine) (schemaTree xmlTree : Element)
    (phase : Option String) : Except ProcessError ProcessOutcome :=
  match validate_sch engine schemaTree xmlTree phase with
  | Except.error e => Except.error (ProcessError.schemaError e)
  | Except.ok (result, report) =>
    match process_result_svrl report with
    | Except.error rs => Except.error (ProcessError.reportError rs)
    | Except.ok rs =>
      if result then
        Except.ok { exitCode := 0, records := rs, summaryLevel := 20 }
      else
        Except.ok { exitCode := 200, records := rs, summaryLevel := 50 }

mutual
/-- Number of `failed-assert` elements in a tree (document order count),
independent of the traversal that `process_result_svrl` performs. -/
def countFA (e : Element) : Nat :=
  match e with
  | .elem t _ _ cs => (if t = failedAssertTag then 1 else 0) + countFAList cs

/-- Count over a list of children. -/
def countFAList (cs : List Element) : Nat :=
  match cs with
  | [] => 0
  | c :: rest => countFA c + countFAList rest
end


/-! ## Concrete fixtures used by witness theorems -/

/-- The qualified tag of the SVRL `text` child of a failed assert. -/
def svrlTextTag : String := qname svrlNS "text"

/-- A well-formed `failed-assert` element: given attributes and one
`svrl:text` child carrying the message. -/
def faElem (attrs : List (String × String)) (msg : String) : Element :=
  Element.elem failedAssertTag attrs none
    [Element.elem svrlTextTag [] (some msg) []]

/-- A `fired-rule` element with `role="fatal"`. -/
def firedFatal : Element :=
  Element.elem firedRuleTag [("role", "fatal")] none []

/-- A `fired-rule` element without a `role` attribute. -/
def firedNoRole : Element :=
  Element.elem firedRuleTag [] none []

/-- A malformed `failed-assert`: no child element, so `fa[0]` raises. -/
def badFA : Element :=
  Element.elem failedAssertTag [] none []

/-- A well-formed SVRL report with one fired rule and two failed asserts. -/
def testReport : Element :=
  Element.elem (qname svrlNS "schematron-output") [] none
    [firedFatal, faElem [("location", "/a")] " msg one ", faElem [] "msg two"]

/-- An SVRL report whose second failed assert is malformed. -/
def badReport : Element :=
  Element.elem (qname svrlNS "schematron-output") [] none
    [faElem [] "ok", badFA, faElem [] "never"]

/-- An engine fixture whose validation always fails, returning an empty
report tree. -/
def failEngine : SchematronEngine :=
  { validate := fun _ _ _ => (false, Element.elem "report" [] none []) }

/-- A schema tree fixture with the ISO Schematron root tag. -/
def isoSchemaTree : Element := Element.elem SCHEMA_TAG [] none []

/-- A document tree fixture. -/
def docTree : Element := Element.elem "doc" [] none []

/-! ## Helper lemmas -/

mutual
/-- The document-order traversal visits each `failed-assert` element of
the tree exactly once. -/
theorem iterFA_length (e : Element) (sibs : List Element) :
    (iterFA e sibs).length = countFA e := by
  match e with
  | .elem t a x cs =>
    rw [iterFA, countFA]
    by_cases h : t = failedAssertTag <;>
      simp [h, iterFAList_length cs []]
    omega

/-- Traversal length over a list of children. -/
theorem iterFAList_length (cs : List Element) (acc : List Element) :
    (iterFAList cs acc).length = countFAList cs := by
  match cs with
  | [] => rw [iterFAList, countFAList]; rfl
  | c :: rest =>
    rw [iterFAList, countFAList]
    simp [iterFA_length c acc, iterFAList_length rest (c :: acc)]
end

/-- When every collected failed assert has a first child with text, the
walk completes and emits one record per element, consecutively numbered
from the starting index. -/
theorem walkFAs_ok (fas : List (Element × List Element)) (idx : Nat)
    (h : ∀ p ∈ fas, (firstChildText p.1).isSome) :
    ∃ rs, walkFAs fas idx = Except.ok rs ∧
      rs.length = fas.length ∧
      rs.map FailedAssertionRecord.idx = List.range' idx fas.length := by
  induction fas generalizing idx with
  | nil => exact ⟨[], rfl, rfl, rfl⟩
  | cons p rest ih =>
    obtain ⟨fa, sibs⟩ := p
    obtain ⟨s, hs⟩ :=
      Option.isSome_iff_exists.mp (h (fa, sibs) (List.mem_cons_self _ _))
    obtain ⟨rs, hrs, hlen, hmap⟩ :=
      ih (idx + 1) (fun q hq => h q (List.mem_cons_of_mem _ hq))
    refine ⟨{ idx := idx, location := attribGet fa "location",
              message := s.trim,
              level := role2level (extractrole fa sibs) } :: rs, ?_, ?_, ?_⟩
    · simp only [walkFAs]
      rw [show firstChildText fa = some s from hs, hrs]
    · simp [hlen]
    · simp [List.range'_succ, hmap]

/-- When the collected failed asserts are a run of well-formed elements
followed by a malformed one, the walk raises, having emitted exactly the
records of the well-formed run before the faulting element — nothing
past it. -/
theorem walkFAs_error (good : List (Element × List Element)) (fa : Element)
    (sibs : List Element) (rest : List (Element × List Element)) (idx : Nat)
    (hg : ∀ p ∈ good, (firstChildText p.1).isSome)
    (hfa : firstChildText fa = none) :
    ∃ rs, walkFAs (good ++ (fa, sibs) :: rest) idx = Except.error rs ∧
      rs.length = good.length := by
  induction good generalizing idx with
  | nil => exact ⟨[], by rw [List.nil_append, walkFAs, hfa], rfl⟩
  | cons q g ih =>
    obtain ⟨fb, sb⟩ := q
    obtain ⟨s, hs⟩ :=
      Option.isSome_iff_exists.mp (hg (fb, sb) (List.mem_cons_self _ _))
    obtain ⟨rs, hrs, hlen⟩ :=
      ih (idx + 1) (fun q hq => hg q (List.mem_cons_of_mem _ hq))
    refine ⟨{ idx := idx, location := attribGet fb "location",
              message := s.trim,
              level := role2level (extractrole fb sb) } :: rs, ?_, ?_⟩
    · rw [List.cons_append]
      simp only [walkFAs]
      rw [show firstChildText fb = some s from hs, hrs]
    · simp [hlen]

/-! ## Claim theorems -/

/-- C1: `check4schematron` performs a complete case analysis on the
root tag of the parsed schema tree: the legacy root tag raises
`OldSchematronError`; a tag that is neither the legacy nor the ISO
Schematron root raises `NoISOSchematronFileError`; the ISO Schematron
root tag returns the parsed tree unchanged. -/
theorem check4schematron_case_analysis (t : Element) :
    (t.tag = OLD_SCHEMA_TAG →
        check4schematron t = Except.error SchError.oldSchematronError) ∧
    (t.tag ≠ OLD_SCHEMA_TAG → t.tag ≠ SCHEMA_TAG →
        check4schematron t = Except.error SchError.noISOSchematronFileError) ∧
    (t.tag = SCHEMA_TAG → check4schematron t = Except.ok t) := by
  have hne : SCHEMA_TAG ≠ OLD_SCHEMA_TAG := by decide
  refine ⟨fun h => ?_, fun h1 h2 => ?_, fun h => ?_⟩
  · simp [check4schematron, h]
  · simp [check4schematron, h1, h2]
  · rw [check4schematron]
    simp [h, hne]

/-- Witness for C1 at three concrete schema trees: an ISO Schematron
root, a legacy root, and an unrelated root tag. -/
theorem check4schematron_case_analysis_witness :
    check4schematron (Element.elem SCHEMA_TAG [] none []) =
      Except.ok (Element.elem SCHEMA_TAG [] none []) ∧
    check4schematron (Element.elem OLD_SCHEMA_TAG [] none []) =
      Except.error SchError.oldSchematronError ∧
    check4schematron (Element.elem "grammar" [] none []) =
      Except.error SchError.noISOSchematronFileError :=
  ⟨(check4schematron_case_analysis _).2.2 rfl,
   (check4schematron_case_analysis _).1 rfl,
   (check4schematron_case_analysis _).2.1 (by decide) (by decide)⟩

/-- C2: whenever `process` completes returning an exit code, the code is
0 when the validation result was a pass and 200 — together with a
fatal-level (CRITICAL = 50) summary line — when it was a fail; no other
exit code is possible. -/
theorem process_exit_codes (engine : SchematronEngine) (s x : Element)
    (p : Option String) (res : Bool) (rep : Element) (o : ProcessOutcome)
    (hv : validate_sch engine s x p = Except.ok (res, rep))
    (hp : process engine s x p = Except.ok o) :
    (res = true → o.exitCode = 0) ∧
    (res = false → o.exitCode = 200 ∧ o.summaryLevel = 50) ∧
    (o.exitCode = 0 ∨ o.exitCode = 200) := by
  rw [process, hv] at hp
  simp only at hp
  cases hw : process_result_svrl rep with
  | error rs => rw [hw] at hp; exact absurd hp (by simp)
  | ok rs =>
    rw [hw] at hp
    cases res with
    | false =>
      simp only [Bool.false_eq_true, if_false, Except.ok.injEq] at hp
      subst hp
      refine ⟨fun h => ?_, fun _ => ⟨rfl, rfl⟩, Or.inr rfl⟩
      simp at h
    | true =>
      simp only [if_true, Except.ok.injEq] at hp
      subst hp
      refine ⟨fun _ => rfl, fun h => ?_, Or.inl rfl⟩
      simp at h

/-- Witness for C2: a failing validation run on concrete trees returns
exit code 200 with a CRITICAL summary, and 200 is among the two only
possible exit codes. -/
theorem process_exit_codes_witness :
    (({ exitCode := 200, records := [], summaryLevel := 50 } :
        ProcessOutcome).exitCode = 200 ∧
      ({ exitCode := 200, records := [], summaryLevel := 50 } :
        ProcessOutcome).summaryLevel = 50) ∧
    (({ exitCode := 200, records := [], summaryLevel := 50 } :
        ProcessOutcome).exitCode = 0 ∨
      ({ exitCode := 200, records := [], summaryLevel := 50 } :
        ProcessOutcome).exitCode = 200) := by
  have h := process_exit_codes failEngine isoSchemaTree docTree none false
      (Element.elem "report" [] none [])
      { exitCode := 200, records := [], summaryLevel := 50 } rfl rfl
  exact ⟨h.2.1 rfl, h.2.2⟩

/-- C3: on a report in which every `failed-assert` has a first child
with text, the walk completes and emits exactly one record per
`failed-assert` element of the tree, numbered 1..K in document order
with no gaps and no reordering. -/
theorem process_result_svrl_indices (report : Element)
    (h : ∀ p ∈ iterFA report [], (firstChildText p.1).isSome) :
    ∃ rs, process_result_svrl report = Except.ok rs ∧
      rs.length = countFA report ∧
      rs.map FailedAssertionRecord.idx = List.range' 1 (countFA report) := by
  obtain ⟨rs, h1, h2, h3⟩ := walkFAs_ok (iterFA report []) 1 h
  rw [← iterFA_length report []]
  exact ⟨rs, h1, h2, h3⟩

/-- Witness for C3 on a concrete report with two failed asserts. -/
theorem process_result_svrl_indices_witness :
    ∃ rs, process_result_svrl testReport = Except.ok rs ∧
      rs.length = countFA testReport ∧
      rs.map FailedAssertionRecord.idx = List.range' 1 (countFA testReport) :=
  process_result_svrl_indices testReport (by decide)

/-- C4: an assertion element carrying its own `role` attribute resolves
to that value, whatever the preceding siblings (in particular a
preceding `fired-rule` with a different role) contain. -/
theorem extractrole_own_role_overrides (fa : Element) (sibs : List Element)
    (r : String) (h : attribGet fa "role" = some r) :
    extractrole fa sibs = some r := by
  simp [extractrole, h]

/-- Witness for C4: a failed assert with `role="error"` next to a
preceding `fired-rule` with `role="fatal"` resolves to `"error"`. -/
theorem extractrole_own_role_overrides_witness :
    extractrole (faElem [("role", "error")] "m") [firedFatal] = some "error" :=
  extractrole_own_role_overrides (faElem [("role", "error")] "m")
    [firedFatal] "error" rfl

/-- C5: an assertion with no `role` attribute of its own inherits the
role of the nearest preceding `fired-rule` sibling (scanning backward
among preceding siblings only — `extractrole` consults nothing but the
sibling list — taking the first `fired-rule` found), here `"fatal"`;
when no preceding `fired-rule` sibling exists the role is absent.
`pre` are the siblings nearer than the fired rule `fr` (in backward
scanning order), none of them a `fired-rule`. -/
theorem extractrole_inherits_nearest_fired_rule (fa fr : Element)
    (pre rest : List Element)
    (hown : attribGet fa "role" = none)
    (hpre : ∀ e ∈ pre, e.tag ≠ firedRuleTag)
    (hfr : fr.tag = firedRuleTag)
    (hrole : attribGet fr "role" = some "fatal") :
    extractrole fa (pre ++ fr :: rest) = some "fatal" ∧
    ∀ sibs : List Element, (∀ e ∈ sibs, e.tag ≠ firedRuleTag) →
      extractrole fa sibs = none := by
  constructor
  · simp only [extractrole, hown]
    rw [List.find?_append,
        List.find?_eq_none.mpr (fun x hx => by simp [hpre x hx]),
        List.find?_cons_of_pos _ (by simp [hfr])]
    simp [hrole]
  · intro sibs hsibs
    simp only [extractrole, hown]
    rw [List.find?_eq_none.mpr (fun x hx => by simp [hsibs x hx])]

/-- Witness for C5: a role-less failed assert with a nearer non-rule
sibling and then a `fired-rule` with `role="fatal"` resolves to
`"fatal"`; with no preceding sibling at all the role is absent. -/
theorem extractrole_inherits_nearest_fired_rule_witness :
    extractrole (faElem [] "m") ([faElem [] "p"] ++ firedFatal :: []) =
      some "fatal" ∧
    extractrole (faElem [] "m") [] = none := by
  have h := extractrole_inherits_nearest_fired_rule (faElem [] "m") firedFatal
      [faElem [] "p"] [] rfl (by decide) rfl rfl
  exact ⟨h.1, h.2 [] (by simp)⟩

/-- C9: the backward scan stops at the first `fired-rule` sibling found:
when that nearest `fired-rule` has no `role` attribute, the inherited
role is absent even though a farther preceding `fired-rule` sibling
carries one. -/
theorem extractrole_stops_at_nearest_fired_rule (fa fr₁ fr₂ : Element)
    (pre mid rest : List Element) (r : String)
    (hown : attribGet fa "role" = none)
    (hpre : ∀ e ∈ pre, e.tag ≠ firedRuleTag)
    (h₁ : fr₁.tag = firedRuleTag)
    (h₁r : attribGet fr₁ "role" = none)
    (h₂ : fr₂.tag = firedRuleTag)
    (h₂r : attribGet fr₂ "role" = some r) :
    extractrole fa (pre ++ fr₁ :: (mid ++ fr₂ :: rest)) = none := by
  simp only [extractrole, hown]
  rw [List.find?_append,
      List.find?_eq_none.mpr (fun x hx => by simp [hpre x hx]),
      List.find?_cons_of_pos _ (by simp [h₁])]
  simp [h₁r]

/-- Witness for C9: nearest `fired-rule` with no role, farther
`fired-rule` with `role="fatal"`: resolution is absent. -/
theorem extractrole_stops_at_nearest_fired_rule_witness :
    extractrole (faElem [] "m") ([] ++ firedNoRole :: ([] ++ firedFatal :: [])) =
      none :=
  extractrole_stops_at_nearest_fired_rule (faElem [] "m") firedNoRole firedFatal
    [] [] [] "fatal" rfl (by simp) rfl rfl rfl rfl

/-- C6: the severity lookup is a total function — an absent role or a
role outside `ROLEDICT` yields an absent level, never a crash — and the
walk still emits the log record of such an assertion, carrying the
absent level (the logging collaborator chooses what to do with it). -/
theorem role2level_unmapped_soft_fail :
    (∀ r : String, (∀ q ∈ ROLEDICT, q.1 ≠ r) → role2level (some r) = none) ∧
    role2level none = none ∧
    (∀ (fa : Element) (sibs : List Element)
        (rest : List (Element × List Element)) (idx : Nat) (s : String),
        firstChildText fa = some s →
        role2level (extractrole fa sibs) = none →
        ∃ rs,
          walkFAs ((fa, sibs) :: rest) idx =
              Except.ok ({ idx := idx, location := attribGet fa "location",
                           message := s.trim, level := none } :: rs) ∨
          walkFAs ((fa, sibs) :: rest) idx =
              Except.error ({ idx := idx, location := attribGet fa "location",
                              message := s.trim, level := none } :: rs)) := by
  refine ⟨?_, rfl, ?_⟩
  · intro r h
    simp only [role2level]
    rw [List.find?_eq_none.mpr (fun x hx => by simp [h x hx])]
    rfl
  · intro fa sibs rest idx s hs hlevel
    cases hw : walkFAs rest (idx + 1) with
    | ok rs =>
      refine ⟨rs, Or.inl ?_⟩
      simp only [walkFAs]
      rw [hs, hw, hlevel]
    | error rs =>
      refine ⟨rs, Or.inr ?_⟩
      simp only [walkFAs]
      rw [hs, hw, hlevel]

/-- Witness for C6: a failed assert carrying the unrecognized role
`"hint"` still yields its record, with an absent level. -/
theorem role2level_unmapped_soft_fail_witness :
    ∃ rs,
      walkFAs [(faElem [("role", "hint")] " m ", [])] 1 =
          Except.ok ({ idx := 1,
                       location := attribGet (faElem [("role", "hint")] " m ")
                           "location",
                       message := (" m ").trim, level := none } :: rs) ∨
      walkFAs [(faElem [("role", "hint")] " m ", [])] 1 =
          Except.error ({ idx := 1,
                          location := attribGet (faElem [("role", "hint")] " m ")
                              "location",
                          message := (" m ").trim, level := none } :: rs) :=
  role2level_unmapped_soft_fail.2.2 (faElem [("role", "hint")] " m ") [] [] 1
    " m " rfl rfl

/-- C7: when the caller supplies no parser, `validate_sch` builds the
default parser — network access disabled, UTF-8 encoding assumed — and
uses that same parser both for the XML document parse and for the schema
parse inside `check4schematron`. -/
theorem validate_sch_uses_default_parsers :
    validate_sch_parsers none = (defaultXMLParserConfig, defaultXMLParserConfig) ∧
    defaultXMLParserConfig.no_network = true ∧
    defaultXMLParserConfig.encoding = some "UTF-8" :=
  ⟨rfl, rfl, rfl⟩

/-- C8: `runValidation` is deterministic — two runs on identical schema
tree, XML tree and phase (with the same engine) return the same pass/fail
outcome and the same sequence of failed-assertion records; the embedding
is a pure function with no process-wide mutable state. -/
theorem runValidation_deterministic (engine : SchematronEngine)
    (s₁ s₂ x₁ x₂ : Element) (p₁ p₂ : Option String)
    (hs : s₁ = s₂) (hx : x₁ = x₂) (hp : p₁ = p₂) :
    runValidation engine s₁ x₁ p₁ = runValidation engine s₂ x₂ p₂ := by
  rw [hs, hx, hp]

/-- Witness for C8 at concrete inputs. -/
theorem runValidation_deterministic_witness :
    runValidation failEngine isoSchemaTree docTree none =
      runValidation failEngine isoSchemaTree docTree none :=
  runValidation_deterministic failEngine isoSchemaTree isoSchemaTree docTree
    docTree none none rfl rfl rfl

/-- C10: a `failed-assert` without a first child carrying text makes the
walk raise at that element, keeping only the records emitted before it
(abort, not skip-and-continue: nothing past the faulting element is
emitted); and on a report in which every `failed-assert` has a first
child with text the error branch is unreachable — the walk returns
normally. -/
theorem process_result_svrl_malformed_aborts :
    (∀ (report : Element) (good : List (Element × List Element))
        (fa : Element) (sibs : List Element)
        (rest : List (Element × List Element)),
        iterFA report [] = good ++ (fa, sibs) :: rest →
        (∀ p ∈ good, (firstChildText p.1).isSome) →
        firstChildText fa = none →
        ∃ rs, process_result_svrl report = Except.error rs ∧
          rs.length = good.length) ∧
    (∀ report : Element,
        (∀ p ∈ iterFA report [], (firstChildText p.1).isSome) →
        ∃ rs, process_result_svrl report = Except.ok rs) := by
  constructor
  · intro report good fa sibs rest hsplit hgood hfa
    rw [process_result_svrl, hsplit]
    exact walkFAs_error good fa sibs rest 1 hgood hfa
  · intro report h
    obtain ⟨rs, h1, _, _⟩ := walkFAs_ok (iterFA report []) 1 h
    exact ⟨rs, h1⟩

/-- Witness for C10: on a concrete report whose second failed assert has
no child, the walk raises having emitted exactly one record; on a
well-formed concrete report it returns normally. -/
theorem process_result_svrl_malformed_aborts_witness :
    (∃ rs, process_result_svrl badReport = Except.error rs ∧
        rs.length = [(faElem [] "ok", ([] : List Element))].length) ∧
    (∃ rs, process_result_svrl testReport = Except.ok rs) :=
  ⟨process_result_svrl_malformed_aborts.1 badReport
      [(faElem [] "ok", [])] badFA [faElem [] "ok"]
      [(faElem [] "never", [badFA, faElem [] "ok"])] rfl (by decide) rfl,
   process_result_svrl_malformed_aborts.2 testReport (by decide)⟩
